import Mathlib

/-!
Verification of the poker-engine room lifecycle controller and deck subsystem.

This development is a shallow embedding of the Go sources:
 - the Redis-backed state (hashes, sets, lists, action log) is modelled by
   `RedisState`; grouped pipeline writes (`RedisClient.Pipeline` + `Exec`)
   are modelled by `execPipe`, executed as one unit per the store interface
   assumption (the store is an external collaborator offering grouped
   batch execution; a `storeOk` flag injects whole-batch failure);
 - `RoomMonitor.checkRoom` / `handleGameStart` / `handleGameStop`
   (services, room monitor file) become `checkRoom`,
   `monitorHandleGameStart`, `monitorHandleGameStop`;
 - `GameStopHandler.Handle` / `resetPlayerState` (handlers/game_stop.go)
   become `gameStopHandle` / `resetPlayerState`;
 - `Game.CanTransitionTo` and friends (models, game file) become
   `canTransitionTo`;
 - `DeckManager.CreateDeck` / `ShuffleDeck` / `DrawCard` / `DrawCards`
   (services/deck_manager.go) become `createDeck`, `shuffleDeck`,
   `drawCard`, `drawCards`;
 - `CardDealer.DealCardsToPlayers` (services, card dealer file) becomes
   `dealCardsToPlayers`.

Numeric store fields are decimal text parsed with Go `strconv.Atoi`
semantics (malformed input parses to zero). The action log is modelled
with structured `ActionEvent` values instead of their JSON text, since no
verified property inspects the serialized form, only which events are
appended.
-/

namespace PokerEngine

/-- A Redis hash: an association list of field/value pairs.
Reading a missing field yields the empty string, as a Go map read does. -/
abbrev Hash := List (String × String)

/-- Read a field of a hash, defaulting to the empty string. -/
def hashGet (h : Hash) (f : String) : String :=
  match h.find? (fun p => p.1 == f) with
  | some p => p.2
  | none => ""

/-- HSET on one hash: the field is bound to the new value, all other
fields keep their binding. -/
def hashSet (h : Hash) (f v : String) : Hash :=
  (f, v) :: h.filter (fun p => p.1 != f)

/-- Structured view of an entry appended to a room's action list by
`ActionLogger.LogGameStarted` / `LogGameStopped`. -/
inductive ActionEvent where
  | gameStarted (gameID : String) (playersCount : Nat)
  | gameStopped (previousPhase reason : String)
deriving DecidableEq

/-- The shared external store: hashes, sets (player/spectator ids),
lists (decks), and per-room action logs. -/
structure RedisState where
  hashes : String → Hash
  sets : String → List String
  lists : String → List String
  actions : String → List ActionEvent

/-- HSET: update one field of one hash. -/
def RedisState.hset (st : RedisState) (key field value : String) : RedisState :=
  { st with hashes := fun k => if k = key then hashSet (st.hashes key) field value else st.hashes k }

/-- HGET with Go-map defaulting (missing field reads as ""). -/
def RedisState.hgetF (st : RedisState) (key field : String) : String :=
  hashGet (st.hashes key) field

/-- SCARD: cardinality of a set key (`GetPlayersCount`). -/
def RedisState.scard (st : RedisState) (key : String) : Nat :=
  (st.sets key).length

/-- SMEMBERS: members of a set key (`GetPlayerIDs`). -/
def RedisState.smembers (st : RedisState) (key : String) : List String :=
  st.sets key

/-- RPUSH onto a list key. -/
def RedisState.rpushL (st : RedisState) (key : String) (vs : List String) : RedisState :=
  { st with lists := fun k => if k = key then st.lists key ++ vs else st.lists k }

/-- DEL of a list key (used to discard an old deck). -/
def RedisState.delList (st : RedisState) (key : String) : RedisState :=
  { st with lists := fun k => if k = key then [] else st.lists k }

/-- Append an event to a room's action log (`ActionLogger.LogAction`,
which RPUSHes the JSON-encoded event onto the actions list). -/
def RedisState.appendAction (st : RedisState) (key : String) (e : ActionEvent) : RedisState :=
  { st with actions := fun k => if k = key then st.actions key ++ [e] else st.actions k }

/-- One queued pipeline command; the monitor and the stop handler only
queue HSET commands. -/
structure PipeCmd where
  key : String
  field : String
  value : String

/-- Execute a grouped pipeline: all queued commands applied in order, as
one unit (`Pipeliner.Exec` under the store's grouped-batch contract). -/
def execPipe (cmds : List PipeCmd) (st : RedisState) : RedisState :=
  cmds.foldl (fun s c => s.hset c.key c.field c.value) st

/- ===== Key layout (storage keys file, `Keys`) ===== -/

/-- Shared key stem "club:{clubId}:room:{roomId}" used by every per-room key. -/
def roomKeyBase (club room : String) : String :=
  "club:" ++ club ++ ":room:" ++ room

/-- Key of the room-description hash. -/
def roomInfoKey (club room : String) : String := roomKeyBase club room ++ ":info"

/-- Key of the game-state hash. -/
def gameStateKey (club room : String) : String := roomKeyBase club room ++ ":game"

/-- Key of the seated-players set. -/
def roomPlayersKey (club room : String) : String := roomKeyBase club room ++ ":players"

/-- Key of the action-log list. -/
def roomActionsKey (club room : String) : String := roomKeyBase club room ++ ":actions"

/-- Key of the room's stored deck list. -/
def roomDeckKey (club room : String) : String := roomKeyBase club room ++ ":deck"

/-- Key of a seated player's hash. -/
def playerInfoKey (club room user : String) : String :=
  roomKeyBase club room ++ ":player:" ++ user

/- ===== Game model (models, game file) ===== -/

/-- Go `strconv.Atoi` as used with its error ignored: a malformed numeric
field parses to zero. -/
def goAtoi (s : String) : Int := s.toInt?.getD 0

/-- The fields of `Game` consumed by the verified properties. The phase is
kept as raw text, matching the Go string-typed `GamePhase` cast in
`NewGameFromRedis` (no re-parsing, no defaulting). -/
structure Game where
  gameID : String
  phase : String
  pot : Int
  currentBet : Int
deriving DecidableEq

/-- Go `NewGameFromRedis` on the fields above: raw text for id and phase,
Atoi-with-default-zero for the numeric fields. -/
def newGameFromRedis (h : Hash) : Game :=
  { gameID := hashGet h "game_id"
    phase := hashGet h "phase"
    pot := goAtoi (hashGet h "pot")
    currentBet := goAtoi (hashGet h "current_bet") }

/-- Go `GameStateService.GetGameState`: HGETALL of the game hash; an empty
hash means no game record and yields the explicit absent value. -/
def getGameState (st : RedisState) (club room : String) : Option Game :=
  let h := st.hashes (gameStateKey club room)
  if h.isEmpty then none else some (newGameFromRedis h)

/-- Go `Game.IsActive`: a hand is in progress in any phase other than
waiting and finished. -/
def Game.isActive (g : Game) : Bool :=
  g.phase != "waiting" && g.phase != "finished"

/-- Go `GameStateService.IsGameActive`: absent game counts as inactive. -/
def isGameActive (st : RedisState) (club room : String) : Bool :=
  match getGameState st club room with
  | none => false
  | some g => g.isActive

/-- Go `Game.CanTransitionTo`: the allowed-successors row of the phase
table, or absent for an unknown phase. -/
def validTransitions : String → Option (List String)
  | "waiting" => some ["pre_flop"]
  | "pre_flop" => some ["flop", "showdown", "finished"]
  | "flop" => some ["turn", "showdown", "finished"]
  | "turn" => some ["river", "showdown", "finished"]
  | "river" => some ["showdown", "finished"]
  | "showdown" => some ["finished", "pre_flop"]
  | "finished" => some ["waiting", "pre_flop"]
  | _ => none

/-- Go `Game.CanTransitionTo` as a pure lookup over `validTransitions`:
unknown source phase rejects, otherwise membership in the allowed row. -/
def canTransitionTo (phase nextPhase : String) : Bool :=
  match validTransitions phase with
  | none => false
  | some allowed => allowed.contains nextPhase

/- ===== Monitor decision (services room monitor, `checkRoom`) ===== -/

/-- The outcome of evaluating one room in a monitor tick. -/
inductive MonitorDecision where
  | startGame
  | stopGame (previousPhase reason : String)
  | noAction
  | skipNoGame
deriving DecidableEq

/-- The decision logic of `RoomMonitor.checkRoom`, in the source's order:
a missing game record is skipped; otherwise the start branch fires first
(enough players and phase waiting), then the stop branch (too few players
and phase not waiting), else nothing. -/
def checkRoomDecision (minPlayers playersCount : Nat) (game : Option Game) : MonitorDecision :=
  match game with
  | none => .skipNoGame
  | some g =>
    if minPlayers ≤ playersCount ∧ g.phase = "waiting" then
      .startGame
    else if playersCount < minPlayers ∧ g.phase ≠ "waiting" then
      .stopGame g.phase "insufficient_players"
    else
      .noAction

/-- The six HSETs queued by `RoomMonitor.handleGameStart` (integer 0 is
written as the text "0", as the store client encodes it). -/
def startCmds (club room gameID startedAt : String) : List PipeCmd :=
  [⟨roomInfoKey club room, "status", "gaming"⟩,
   ⟨gameStateKey club room, "phase", "pre_flop"⟩,
   ⟨gameStateKey club room, "game_id", gameID⟩,
   ⟨gameStateKey club room, "started_at", startedAt⟩,
   ⟨gameStateKey club room, "pot", "0"⟩,
   ⟨gameStateKey club room, "current_bet", "0"⟩]

/-- Go `RoomMonitor.handleGameStart`: queue the six field writes, execute
them as one grouped call, and on success append a game-started event. The
generated game id and timestamp are wall-clock inputs, passed as
parameters; `storeOk` is the grouped call's fate (a failed `Exec` returns
the error before any logging). -/
def monitorHandleGameStart (club room gameID startedAt : String) (playersCount : Nat)
    (storeOk : Bool) (st : RedisState) : Except Unit RedisState :=
  if storeOk then
    let st1 := execPipe (startCmds club room gameID startedAt) st
    .ok (st1.appendAction (roomActionsKey club room) (.gameStarted gameID playersCount))
  else
    .error ()

/-- The seven HSETs queued by `RoomMonitor.handleGameStop`. -/
def stopCmdsMonitor (club room : String) : List PipeCmd :=
  [⟨roomInfoKey club room, "status", "waiting"⟩,
   ⟨gameStateKey club room, "phase", "waiting"⟩,
   ⟨gameStateKey club room, "game_id", ""⟩,
   ⟨gameStateKey club room, "started_at", ""⟩,
   ⟨gameStateKey club room, "pot", "0"⟩,
   ⟨gameStateKey club room, "current_bet", "0"⟩,
   ⟨gameStateKey club room, "community_cards", "[]"⟩]

/-- Go `RoomMonitor.handleGameStop`: queue the seven game-level field
writes, execute them as one grouped call, and on success append a
game-stopped event. Note that this monitor-side path performs no
per-player reset. -/
def monitorHandleGameStop (club room previousPhase reason : String)
    (storeOk : Bool) (st : RedisState) : Except Unit RedisState :=
  if storeOk then
    let st1 := execPipe (stopCmdsMonitor club room) st
    .ok (st1.appendAction (roomActionsKey club room) (.gameStopped previousPhase reason))
  else
    .error ()

/-- Go `RoomMonitor.checkRoom` as a state transformer: read the
seated-player count (SCARD) and the game record, take the decision of
`checkRoomDecision`, and run the corresponding transition; a failed
transition is only logged, leaving the state unchanged. -/
def checkRoom (minPlayers : Nat) (club room gameID startedAt : String)
    (storeOk : Bool) (st : RedisState) : RedisState :=
  let cnt := st.scard (roomPlayersKey club room)
  match checkRoomDecision minPlayers cnt (getGameState st club room) with
  | .startGame =>
    match monitorHandleGameStart club room gameID startedAt cnt storeOk st with
    | .ok st1 => st1
    | .error _ => st
  | .stopGame prev reason =>
    match monitorHandleGameStop club room prev reason storeOk st with
    | .ok st1 => st1
    | .error _ => st
  | .noAction => st
  | .skipNoGame => st

/- ===== Stop handler (handlers/game_stop.go) ===== -/

/-- The eight HSETs queued by `GameStopHandler.Handle` (this handler also
clears `current_player_position`, unlike the monitor-side copy). -/
def stopCmdsHandler (club room : String) : List PipeCmd :=
  [⟨roomInfoKey club room, "status", "waiting"⟩,
   ⟨gameStateKey club room, "phase", "waiting"⟩,
   ⟨gameStateKey club room, "game_id", ""⟩,
   ⟨gameStateKey club room, "started_at", ""⟩,
   ⟨gameStateKey club room, "pot", "0"⟩,
   ⟨gameStateKey club room, "current_bet", "0"⟩,
   ⟨gameStateKey club room, "current_player_position", ""⟩,
   ⟨gameStateKey club room, "community_cards", "[]"⟩]

/-- The field resets of `GameStopHandler.resetPlayerState` (the store
client encodes integer 0 as "0" and boolean false as "0"). -/
def playerResetFields : List (String × String) :=
  [("status", "waiting"), ("bet", "0"), ("cards", "[]"), ("last_action", ""),
   ("is_dealer", "0"), ("is_small_blind", "0"), ("is_big_blind", "0")]

/-- Go `GameStopHandler.resetPlayerState`: HMSET of the reset fields onto
one player's hash. -/
def resetPlayerState (club room user : String) (st : RedisState) : RedisState :=
  playerResetFields.foldl (fun s fv => s.hset (playerInfoKey club room user) fv.1 fv.2) st

/-- Go `GameStopHandler.Handle`: room-existence check (EXISTS of the room
info hash), then the is-active guard — a game already stopped returns
success immediately with no write and no log append — then the grouped
stop write, the best-effort per-player resets, and the game-stopped log
append. -/
def gameStopHandle (club room previousPhase reason : String)
    (storeOk : Bool) (st : RedisState) : Except String RedisState :=
  if (st.hashes (roomInfoKey club room)).isEmpty then
    .error "room does not exist"
  else if !(isGameActive st club room) then
    .ok st
  else if storeOk then
    let st1 := execPipe (stopCmdsHandler club room) st
    let players := st1.smembers (roomPlayersKey club room)
    let st2 := players.foldl (fun s u => resetPlayerState club room u s) st1
    .ok (st2.appendAction (roomActionsKey club room) (.gameStopped previousPhase reason))
  else
    .error "redis update failed"

/- ===== Deck subsystem (services/deck_manager.go) ===== -/

/-- The four suit codes, in the source's order. -/
def suits : List String := ["H", "D", "C", "S"]

/-- The thirteen rank codes, in the source's order. -/
def ranks : List String := ["A", "2", "3", "4", "5", "6", "7", "8", "9", "T", "J", "Q", "K"]

/-- Go `DeckManager.CreateDeck`: for each suit, append every rank+suit
code, giving the 52-card deck in canonical order. -/
def createDeck : List String :=
  suits.flatMap (fun suit => ranks.map (fun rank => rank ++ suit))

/-- Go parallel assignment swapping the elements at positions i and j of
a slice; out-of-range indices never occur in the shuffle loop and leave
the list unchanged here. -/
def listSwap (l : List String) (i j : Nat) : List String :=
  match l[i]?, l[j]? with
  | some a, some b => (l.set i b).set j a
  | _, _ => l

/-- The Fisher-Yates loop of `DeckManager.ShuffleDeck`, counting the loop
index down to 1. The random source is a stream `rng` of draws indexed by
the loop counter; `rng i % (i+1)` models `rng.Intn(i+1)`, whose contract
is exactly a value in [0, i]. Every realizable sequence of `Intn` results
is some such stream. -/
def fisherYatesAux (rng : Nat → Nat) : Nat → List String → List String
  | 0, l => l
  | i + 1, l => fisherYatesAux rng i (listSwap l (i + 1) (rng (i + 1) % (i + 2)))

/-- Go `DeckManager.ShuffleDeck`: the source copies the input slice and
swaps in place from the last index down; the copy makes it a pure
transform of the input, which the embedding reflects by construction. -/
def shuffleDeck (rng : Nat → Nat) (deck : List String) : List String :=
  fisherYatesAux rng (deck.length - 1) deck

/-- The error text go-redis returns for a pop from a missing/empty list. -/
def redisNil : String := "redis: nil"

/-- RPOP against a reachable store: the last element of the list, or the
redis-nil error when the deck list is empty. -/
def rpopResult (l : List String) : Except String (String × List String) :=
  match l.getLast? with
  | none => .error redisNil
  | some c => .ok (c, l.dropLast)

/-- Go `DeckManager.DrawCard`: RPOP, converting the redis-nil error into
the empty-string sentinel with a nil error; any other store error (none
arises from a reachable store) propagates. -/
def drawCard (deck : List String) : Except String (String × List String) :=
  match rpopResult deck with
  | .error e => if e = redisNil then .ok ("", deck) else .error e
  | .ok r => .ok r

/-- The loop body of `DeckManager.DrawCards`: up to `count` single draws,
accumulating cards in draw order, stopping early (without error) at the
empty sentinel. -/
def drawCardsAux : Nat → List String → List String → Except String (List String × List String)
  | 0, acc, deck => .ok (acc, deck)
  | count + 1, acc, deck =>
    match drawCard deck with
    | .error e => .error e
    | .ok (c, deck1) =>
      if c = "" then .ok (acc, deck1)
      else drawCardsAux count (acc ++ [c]) deck1

/-- Go `DeckManager.DrawCards`. -/
def drawCards (deck : List String) (count : Nat) : Except String (List String × List String) :=
  drawCardsAux count [] deck

/-- Go `DeckManager.SaveDeckToRedis`: DEL of any previous deck list, then
RPUSH of the whole new deck in order. -/
def saveDeckToRedis (club room : String) (deck : List String) (st : RedisState) : RedisState :=
  (st.delList (roomDeckKey club room)).rpushL (roomDeckKey club room) deck

/- ===== Card dealer (services, card dealer file) ===== -/

/-- Go `json.Marshal` of a plain string slice whose entries need no
escaping (card codes never do). -/
def jsonArr (cards : List String) : String :=
  "[" ++ String.intercalate "," (cards.map (fun c => "\"" ++ c ++ "\"")) ++ "]"

/-- Go `CardDealer.savePlayerCards`: HSET of the JSON-encoded hole cards
onto the player's hash. -/
def savePlayerCards (club room user : String) (cards : List String) (st : RedisState) : RedisState :=
  st.hset (playerInfoKey club room user) "cards" (jsonArr cards)

/-- Errors surfaced by `CardDealer.DealCardsToPlayers`. -/
inductive DealError where
  | noPlayers
  | deckExhausted
  | store (msg : String)
deriving DecidableEq

/-- `DeckManager.DrawCards` run against the stored deck list of the room,
threading the store state. -/
def drawCardsS (st : RedisState) (key : String) (count : Nat) :
    Except String (List String × RedisState) :=
  match drawCards (st.lists key) count with
  | .error e => .error e
  | .ok (cards, rest) =>
    .ok (cards, { st with lists := fun k => if k = key then rest else st.lists k })

/-- The per-player loop of `CardDealer.DealCardsToPlayers`: draw two cards
for each player in turn; a store error aborts, and a draw of fewer than
two cards aborts the whole operation as deck exhaustion. -/
def dealToPlayers (club room : String) : List String → RedisState → Except DealError RedisState
  | [], st => .ok st
  | user :: rest, st =>
    match drawCardsS st (roomDeckKey club room) 2 with
    | .error e => .error (.store e)
    | .ok (cards, st1) =>
      if cards.length ≠ 2 then .error .deckExhausted
      else dealToPlayers club room rest (savePlayerCards club room user cards st1)

/-- Go `CardDealer.DealCardsToPlayers`: read the seated players
(SMEMBERS); an empty set is the no-players failure; otherwise create and
shuffle a fresh deck, persist it (replacing any prior deck), then deal
two hole cards to every player in turn. -/
def dealCardsToPlayers (rng : Nat → Nat) (club room : String) (st : RedisState) :
    Except DealError RedisState :=
  let players := st.smembers (roomPlayersKey club room)
  if players.isEmpty then
    .error .noPlayers
  else
    let deck := shuffleDeck rng createDeck
    let st1 := saveDeckToRedis club room deck st
    dealToPlayers club room players st1

/- ===== Theorems ===== -/

/-- C7: every call to `CreateDeck` returns the same deterministic
canonical sequence of exactly 52 pairwise-distinct two-character card
codes (13 ranks by 4 suits, suits outermost). -/
theorem create_deck_correct :
    createDeck =
      ["AH", "2H", "3H", "4H", "5H", "6H", "7H", "8H", "9H", "TH", "JH", "QH", "KH",
       "AD", "2D", "3D", "4D", "5D", "6D", "7D", "8D", "9D", "TD", "JD", "QD", "KD",
       "AC", "2C", "3C", "4C", "5C", "6C", "7C", "8C", "9C", "TC", "JC", "QC", "KC",
       "AS", "2S", "3S", "4S", "5S", "6S", "7S", "8S", "9S", "TS", "JS", "QS", "KS"] ∧
    createDeck.length = 52 ∧ createDeck.Nodup ∧ ∀ c ∈ createDeck, c.length = 2 := by
  refine ⟨by decide, by decide, by decide, by decide⟩

/-- The transition table of spec section 4.3, as the set of allowed
ordered pairs, stated independently of the source lookup. -/
def specTransitionPairs : List (String × String) :=
  [("waiting", "pre_flop"),
   ("pre_flop", "flop"), ("pre_flop", "showdown"), ("pre_flop", "finished"),
   ("flop", "turn"), ("flop", "showdown"), ("flop", "finished"),
   ("turn", "river"), ("turn", "showdown"), ("turn", "finished"),
   ("river", "showdown"), ("river", "finished"),
   ("showdown", "finished"), ("showdown", "pre_flop"),
   ("finished", "waiting"), ("finished", "pre_flop")]

/-- The seven phase names. -/
def allPhases : List String :=
  ["waiting", "pre_flop", "flop", "turn", "river", "showdown", "finished"]

/-- C4: over every ordered pair of the seven phases, the pure lookup
`CanTransitionTo` accepts exactly the pairs of the spec's transition
table and rejects every other pair. -/
theorem can_transition_matches_table :
    ∀ f t : String, f ∈ allPhases → t ∈ allPhases →
      (canTransitionTo f t = true ↔ (f, t) ∈ specTransitionPairs) := by
  intro f t hf ht
  simp only [allPhases, List.mem_cons, List.not_mem_nil, or_false] at hf ht
  rcases hf with rfl | rfl | rfl | rfl | rfl | rfl | rfl <;>
    rcases ht with rfl | rfl | rfl | rfl | rfl | rfl | rfl <;> decide

/-- Witness for C4 at the pair (showdown, pre_flop). -/
theorem can_transition_matches_table_witness :
    ("showdown" ∈ allPhases ∧ "pre_flop" ∈ allPhases) ∧
      (canTransitionTo "showdown" "pre_flop" = true ↔
        ("showdown", "pre_flop") ∈ specTransitionPairs) :=
  ⟨⟨by decide, by decide⟩,
   can_transition_matches_table "showdown" "pre_flop" (by decide) (by decide)⟩

/-- C1: for a room whose game record is present, the per-room check fires
the start transition exactly when the seated count reaches the minimum
and the stored phase is waiting; otherwise it fires the stop transition —
with the current phase as previous phase and reason insufficient_players
— exactly when the count is below the minimum and the phase is not
waiting; otherwise it takes no action. A room with no game record is
skipped. Totality of `MonitorDecision` makes the outcomes mutually
exclusive. -/
theorem monitor_decision_rule (minPlayers playersCount : Nat) (g : Game) :
    (checkRoomDecision minPlayers playersCount (some g) = .startGame ↔
      minPlayers ≤ playersCount ∧ g.phase = "waiting") ∧
    (checkRoomDecision minPlayers playersCount (some g) =
        .stopGame g.phase "insufficient_players" ↔
      playersCount < minPlayers ∧ g.phase ≠ "waiting") ∧
    (∀ p r, checkRoomDecision minPlayers playersCount (some g) = .stopGame p r →
      p = g.phase ∧ r = "insufficient_players") ∧
    checkRoomDecision minPlayers playersCount none = .skipNoGame := by
  have hd : checkRoomDecision minPlayers playersCount (some g) =
      (if minPlayers ≤ playersCount ∧ g.phase = "waiting" then .startGame
       else if playersCount < minPlayers ∧ g.phase ≠ "waiting" then
         .stopGame g.phase "insufficient_players"
       else .noAction) := rfl
  rw [hd]
  by_cases h1 : minPlayers ≤ playersCount ∧ g.phase = "waiting"
  · rw [if_pos h1]
    exact ⟨⟨fun _ => h1, fun _ => rfl⟩,
      ⟨fun h => MonitorDecision.noConfusion h, fun h => absurd h1.2 h.2⟩,
      fun p r h => MonitorDecision.noConfusion h, rfl⟩
  · rw [if_neg h1]
    by_cases h2 : playersCount < minPlayers ∧ g.phase ≠ "waiting"
    · rw [if_pos h2]
      exact ⟨⟨fun h => MonitorDecision.noConfusion h,
          fun hc => absurd hc.1 (Nat.not_le.mpr h2.1)⟩,
        ⟨fun _ => h2, fun _ => rfl⟩,
        fun p r h => ⟨(MonitorDecision.stopGame.inj h).1.symm,
          (MonitorDecision.stopGame.inj h).2.symm⟩, rfl⟩
    · rw [if_neg h2]
      exact ⟨⟨fun h => MonitorDecision.noConfusion h, fun h => absurd h h1⟩,
        ⟨fun h => MonitorDecision.noConfusion h, fun h => absurd h h2⟩,
        fun p r h => MonitorDecision.noConfusion h, rfl⟩

/-- Witness for C1 at a concrete instance: 2 required players, 1 seated,
stored phase flop. -/
theorem monitor_decision_rule_witness :
    (checkRoomDecision 2 1 (some (Game.mk "g1" "flop" 0 0)) = .startGame ↔
      2 ≤ 1 ∧ "flop" = "waiting") ∧
    (checkRoomDecision 2 1 (some (Game.mk "g1" "flop" 0 0)) =
        .stopGame "flop" "insufficient_players" ↔
      1 < 2 ∧ "flop" ≠ "waiting") ∧
    (∀ p r, checkRoomDecision 2 1 (some (Game.mk "g1" "flop" 0 0)) = .stopGame p r →
      p = "flop" ∧ r = "insufficient_players") ∧
    checkRoomDecision 2 1 none = .skipNoGame :=
  monitor_decision_rule 2 1 (Game.mk "g1" "flop" 0 0)

/- ===== Hash and store lemmas ===== -/

/-- Reading the field just set yields the new value. -/
theorem hashGet_hashSet_self (h : Hash) (f v : String) : hashGet (hashSet h f v) f = v := by
  simp [hashGet, hashSet, List.find?]

/-- Filtering out one field does not affect lookups of a different field. -/
theorem find?_filter_ne (f f' : String) (hne : f' ≠ f) :
    ∀ h : Hash, (h.filter (fun p => p.1 != f)).find? (fun p => p.1 == f') =
      h.find? (fun p => p.1 == f')
  | [] => rfl
  | a :: t => by
    by_cases ha : a.1 = f
    · have h1 : (a.1 != f) = false := by simp [ha]
      have h2 : (a.1 == f') = false := by simp [ha, Ne.symm hne]
      simp [List.filter_cons, h1, List.find?_cons, h2, find?_filter_ne f f' hne t]
    · have h1 : (a.1 != f) = true := by simp [ha]
      simp only [List.filter_cons, h1, if_true]
      by_cases hb : (a.1 == f') = true
      · simp [List.find?_cons, hb]
      · simp [List.find?_cons, hb, find?_filter_ne f f' hne t]

/-- Setting one field does not affect reads of a different field. -/
theorem hashGet_hashSet_ne (h : Hash) {f f' : String} (v : String) (hne : f' ≠ f) :
    hashGet (hashSet h f v) f' = hashGet h f' := by
  have hf : (f == f') = false := by simp [Ne.symm hne]
  simp [hashGet, hashSet, List.find?_cons, hf, find?_filter_ne f f' hne h]

/-- A hash with a populated field is not empty. -/
theorem hash_not_empty_of_hget (h : Hash) (f : String) (hne : hashGet h f ≠ "") :
    h.isEmpty = false := by
  cases h with
  | nil => exact absurd rfl hne
  | cons a t => rfl

/-- HSET then HGET of the same key and field yields the new value. -/
theorem hgetF_hset_self (st : RedisState) (k f v : String) :
    (st.hset k f v).hgetF k f = v := by
  simp [RedisState.hset, RedisState.hgetF, hashGet_hashSet_self]

/-- HSET leaves reads of a different field (of any key) unchanged. -/
theorem hgetF_hset_ne_field (st : RedisState) (k k' f f' v : String) (hne : f' ≠ f) :
    (st.hset k f v).hgetF k' f' = st.hgetF k' f' := by
  unfold RedisState.hset RedisState.hgetF
  by_cases hk : k' = k
  · subst hk
    simp [hashGet_hashSet_ne _ _ hne]
  · simp [hk]

/-- HSET leaves the hash of a different key unchanged. -/
theorem hashes_hset_ne_key (st : RedisState) (k k' f v : String) (hne : k' ≠ k) :
    (st.hset k f v).hashes k' = st.hashes k' := by
  simp [RedisState.hset, hne]

/-- HSET leaves reads of a different key unchanged. -/
theorem hgetF_hset_ne_key (st : RedisState) (k k' f f' v : String) (hne : k' ≠ k) :
    (st.hset k f v).hgetF k' f' = st.hgetF k' f' := by
  unfold RedisState.hgetF
  rw [hashes_hset_ne_key st k k' f v hne]

/-- Appending to the action log leaves all hashes unchanged. -/
theorem hashes_appendAction (st : RedisState) (k : String) (e : ActionEvent) :
    (st.appendAction k e).hashes = st.hashes := rfl

/-- Appending to the action log leaves hash reads unchanged. -/
theorem hgetF_appendAction (st : RedisState) (k k' f : String) (e : ActionEvent) :
    (st.appendAction k e).hgetF k' f = st.hgetF k' f := rfl

/-- The room-info key and the game-state key of a room never collide. -/
theorem roomInfoKey_ne_gameStateKey (c r : String) :
    roomInfoKey c r ≠ gameStateKey c r := by
  intro h
  have hd := congrArg String.data h
  simp only [roomInfoKey, gameStateKey, String.data_append] at hd
  have h2 := List.append_inj_right hd rfl
  exact absurd h2 (by decide)

/-- Distinct user ids give distinct player-info keys. -/
theorem playerInfoKey_inj (c r : String) {u1 u2 : String}
    (h : playerInfoKey c r u1 = playerInfoKey c r u2) : u1 = u2 := by
  have hd := congrArg String.data h
  simp only [playerInfoKey, String.data_append, List.append_assoc] at hd
  exact String.ext (List.append_inj_right (List.append_inj_right hd rfl) rfl)

/-- C2: the start transition is one grouped call writing exactly the six
fields (room status gaming; game phase pre_flop, the new game id, the
start time, pot 0, current bet 0): on success every one of those fields
holds its new value and every other key and field of every hash, and all
sets and lists, are untouched; when the grouped call fails the whole
transition returns an error, no successor state exists (no partial field
is authoritative), and the monitor tick leaves the store exactly as it
was, so the next tick re-evaluates the same waiting phase and retries. -/
theorem start_transition_atomic (club room gameID startedAt : String) (n : Nat)
    (st : RedisState) :
    (∃ st1, monitorHandleGameStart club room gameID startedAt n true st = .ok st1 ∧
      st1.hgetF (roomInfoKey club room) "status" = "gaming" ∧
      st1.hgetF (gameStateKey club room) "phase" = "pre_flop" ∧
      st1.hgetF (gameStateKey club room) "game_id" = gameID ∧
      st1.hgetF (gameStateKey club room) "started_at" = startedAt ∧
      st1.hgetF (gameStateKey club room) "pot" = "0" ∧
      st1.hgetF (gameStateKey club room) "current_bet" = "0" ∧
      (∀ k, k ≠ roomInfoKey club room → k ≠ gameStateKey club room →
        st1.hashes k = st.hashes k) ∧
      (∀ f, f ≠ "status" →
        st1.hgetF (roomInfoKey club room) f = st.hgetF (roomInfoKey club room) f) ∧
      (∀ f, f ≠ "phase" → f ≠ "game_id" → f ≠ "started_at" → f ≠ "pot" →
        f ≠ "current_bet" →
        st1.hgetF (gameStateKey club room) f = st.hgetF (gameStateKey club room) f) ∧
      st1.sets = st.sets ∧ st1.lists = st.lists) ∧
    monitorHandleGameStart club room gameID startedAt n false st = .error () ∧
    (∀ minPlayers, checkRoom minPlayers club room gameID startedAt false st = st) := by
  have hrigs : roomInfoKey club room ≠ gameStateKey club room :=
    roomInfoKey_ne_gameStateKey club room
  have hgsri : gameStateKey club room ≠ roomInfoKey club room := fun h => hrigs h.symm
  refine ⟨?_, rfl, ?_⟩
  · refine ⟨_, rfl, ?_, ?_, ?_, ?_, ?_, ?_, ?_, ?_, ?_, rfl, rfl⟩
    · simp only [execPipe, startCmds, List.foldl, hgetF_appendAction]
      rw [hgetF_hset_ne_key _ _ _ _ _ _ hrigs, hgetF_hset_ne_key _ _ _ _ _ _ hrigs,
        hgetF_hset_ne_key _ _ _ _ _ _ hrigs, hgetF_hset_ne_key _ _ _ _ _ _ hrigs,
        hgetF_hset_ne_key _ _ _ _ _ _ hrigs, hgetF_hset_self]
    · simp only [execPipe, startCmds, List.foldl, hgetF_appendAction]
      rw [hgetF_hset_ne_field _ _ _ _ _ _ (by simp), hgetF_hset_ne_field _ _ _ _ _ _ (by simp),
        hgetF_hset_ne_field _ _ _ _ _ _ (by simp), hgetF_hset_ne_field _ _ _ _ _ _ (by simp),
        hgetF_hset_self]
    · simp only [execPipe, startCmds, List.foldl, hgetF_appendAction]
      rw [hgetF_hset_ne_field _ _ _ _ _ _ (by simp), hgetF_hset_ne_field _ _ _ _ _ _ (by simp),
        hgetF_hset_ne_field _ _ _ _ _ _ (by simp), hgetF_hset_self]
    · simp only [execPipe, startCmds, List.foldl, hgetF_appendAction]
      rw [hgetF_hset_ne_field _ _ _ _ _ _ (by simp), hgetF_hset_ne_field _ _ _ _ _ _ (by simp),
        hgetF_hset_self]
    · simp only [execPipe, startCmds, List.foldl, hgetF_appendAction]
      rw [hgetF_hset_ne_field _ _ _ _ _ _ (by simp), hgetF_hset_self]
    · simp only [execPipe, startCmds, List.foldl, hgetF_appendAction]
      rw [hgetF_hset_self]
    · intro k hk1 hk2
      simp only [execPipe, startCmds, List.foldl, hashes_appendAction]
      rw [hashes_hset_ne_key _ _ _ _ _ hk2, hashes_hset_ne_key _ _ _ _ _ hk2,
        hashes_hset_ne_key _ _ _ _ _ hk2, hashes_hset_ne_key _ _ _ _ _ hk2,
        hashes_hset_ne_key _ _ _ _ _ hk2, hashes_hset_ne_key _ _ _ _ _ hk1]
    · intro f hf
      simp only [execPipe, startCmds, List.foldl, hgetF_appendAction]
      rw [hgetF_hset_ne_key _ _ _ _ _ _ hrigs, hgetF_hset_ne_key _ _ _ _ _ _ hrigs,
        hgetF_hset_ne_key _ _ _ _ _ _ hrigs, hgetF_hset_ne_key _ _ _ _ _ _ hrigs,
        hgetF_hset_ne_key _ _ _ _ _ _ hrigs, hgetF_hset_ne_field _ _ _ _ _ _ hf]
    · intro f h1 h2 h3 h4 h5
      simp only [execPipe, startCmds, List.foldl, hgetF_appendAction]
      rw [hgetF_hset_ne_field _ _ _ _ _ _ h5, hgetF_hset_ne_field _ _ _ _ _ _ h4,
        hgetF_hset_ne_field _ _ _ _ _ _ h3, hgetF_hset_ne_field _ _ _ _ _ _ h2,
        hgetF_hset_ne_field _ _ _ _ _ _ h1, hgetF_hset_ne_key _ _ _ _ _ _ hgsri]
  · intro minPlayers
    rcases hdec : checkRoomDecision minPlayers (st.scard (roomPlayersKey club room))
        (getGameState st club room) with _ | ⟨p, r⟩ | _ | _ <;>
      simp only [checkRoom, hdec] <;> rfl

/-- The empty store, used by concrete witnesses. -/
def stEmpty : RedisState :=
  { hashes := fun _ => [], sets := fun _ => [], lists := fun _ => [], actions := fun _ => [] }

/-- Witness for C2 at a concrete instance: the empty store, with the
frame conjunct exercised at the unrelated key "x". -/
theorem start_transition_atomic_witness :
    ∃ st1, monitorHandleGameStart "1" "2" "g" "t" 2 true stEmpty = .ok st1 ∧
      st1.hgetF (roomInfoKey "1" "2") "status" = "gaming" ∧
      st1.hgetF (gameStateKey "1" "2") "phase" = "pre_flop" ∧
      st1.hgetF (gameStateKey "1" "2") "game_id" = "g" ∧
      ("x" ≠ roomInfoKey "1" "2" ∧ "x" ≠ gameStateKey "1" "2") ∧
      st1.hashes "x" = stEmpty.hashes "x" ∧
      ("round_number" ≠ "phase" ∧ "round_number" ≠ "game_id" ∧
        "round_number" ≠ "started_at" ∧ "round_number" ≠ "pot" ∧
        "round_number" ≠ "current_bet") ∧
      st1.hgetF (gameStateKey "1" "2") "round_number" =
        stEmpty.hgetF (gameStateKey "1" "2") "round_number" ∧
      checkRoom 2 "1" "2" "g" "t" false stEmpty = stEmpty := by
  obtain ⟨hsucc, herr, hretry⟩ := start_transition_atomic "1" "2" "g" "t" 2 stEmpty
  obtain ⟨st1, hok, h1, h2, h3, h4, h5, h6, hframe, hriframe, hgsframe, hsets, hlists⟩ := hsucc
  exact ⟨st1, hok, h1, h2, h3, ⟨by decide, by decide⟩,
    hframe "x" (by decide) (by decide),
    ⟨by decide, by decide, by decide, by decide, by decide⟩,
    hgsframe "round_number" (by decide) (by decide) (by decide) (by decide) (by decide),
    hretry 2⟩

/-- C9: the stop handler invoked on a room whose game is already in phase
waiting is a no-op: it returns success with the store state unchanged —
hence no field write happens and no game_stopped event is appended to the
action log — for any store fate and any previous-phase/reason arguments. -/
theorem stop_idempotent (club room prevPhase reason : String) (ok : Bool) (st : RedisState)
    (hroom : st.hashes (roomInfoKey club room) ≠ [])
    (hphase : st.hgetF (gameStateKey club room) "phase" = "waiting") :
    gameStopHandle club room prevPhase reason ok st = .ok st := by
  have hne : hashGet (st.hashes (gameStateKey club room)) "phase" ≠ "" := by
    rw [show hashGet (st.hashes (gameStateKey club room)) "phase" =
      st.hgetF (gameStateKey club room) "phase" from rfl, hphase]
    simp
  have hempty : (st.hashes (gameStateKey club room)).isEmpty = false :=
    hash_not_empty_of_hget _ _ hne
  have hgs : getGameState st club room =
      some (newGameFromRedis (st.hashes (gameStateKey club room))) := by
    simp only [getGameState]
    rw [hempty]
    rfl
  have hph : (newGameFromRedis (st.hashes (gameStateKey club room))).phase = "waiting" :=
    hphase
  have hact : isGameActive st club room = false := by
    unfold isGameActive
    rw [hgs]
    simp [Game.isActive, hph]
  have hroomEmpty : (st.hashes (roomInfoKey club room)).isEmpty = false := by
    cases hcase : st.hashes (roomInfoKey club room) with
    | nil => exact absurd hcase hroom
    | cons a t => rfl
  unfold gameStopHandle
  rw [hroomEmpty, hact]
  rfl

/-- Witness for C9: a concrete room whose game hash already has phase
waiting; the stop handler returns success and the unchanged state. -/
theorem stop_idempotent_witness :
    gameStopHandle "1" "2" "flop" "insufficient_players" true
      { stEmpty with hashes := fun k =>
          if k = roomInfoKey "1" "2" then [("status", "waiting")]
          else if k = gameStateKey "1" "2" then [("phase", "waiting"), ("game_id", "")]
          else [] } =
    .ok { stEmpty with hashes := fun k =>
          if k = roomInfoKey "1" "2" then [("status", "waiting")]
          else if k = gameStateKey "1" "2" then [("phase", "waiting"), ("game_id", "")]
          else [] } :=
  stop_idempotent "1" "2" "flop" "insufficient_players" true _
    (by simp [roomInfoKey, roomKeyBase]) (by decide)

/-- C10: implicit frame property — a room whose stored game phase is
finished and whose seated count meets the minimum triggers neither the
start nor the stop transition in a tick: the per-room decision is
no-action and the store (every room, game and player field) is left
completely unchanged; the controller never moves a finished game while
enough players remain seated. -/
theorem finished_phase_frame (minPlayers : Nat) (club room gameID startedAt : String)
    (ok : Bool) (st : RedisState)
    (hphase : st.hgetF (gameStateKey club room) "phase" = "finished")
    (hcnt : minPlayers ≤ st.scard (roomPlayersKey club room)) :
    checkRoomDecision minPlayers (st.scard (roomPlayersKey club room))
      (getGameState st club room) = .noAction ∧
    checkRoom minPlayers club room gameID startedAt ok st = st := by
  have hne : hashGet (st.hashes (gameStateKey club room)) "phase" ≠ "" := by
    rw [show hashGet (st.hashes (gameStateKey club room)) "phase" =
      st.hgetF (gameStateKey club room) "phase" from rfl, hphase]
    simp
  have hempty : (st.hashes (gameStateKey club room)).isEmpty = false :=
    hash_not_empty_of_hget _ _ hne
  have hgs : getGameState st club room =
      some (newGameFromRedis (st.hashes (gameStateKey club room))) := by
    simp only [getGameState]
    rw [hempty]
    rfl
  have hph : (newGameFromRedis (st.hashes (gameStateKey club room))).phase = "finished" :=
    hphase
  have hdec : checkRoomDecision minPlayers (st.scard (roomPlayersKey club room))
      (getGameState st club room) = .noAction := by
    rw [hgs]
    simp only [checkRoomDecision]
    rw [if_neg (by simp [hph]), if_neg (by simp [Nat.not_lt.mpr hcnt])]
  refine ⟨hdec, ?_⟩
  simp only [checkRoom, hdec]

/-- Witness for C10: a concrete finished-phase room with two seated
players and a two-player minimum; the tick changes nothing. -/
theorem finished_phase_frame_witness :
    checkRoomDecision 2
      (RedisState.scard
        { stEmpty with
          hashes := fun k =>
            if k = gameStateKey "1" "2" then [("phase", "finished"), ("game_id", "g9")] else [],
          sets := fun k => if k = roomPlayersKey "1" "2" then ["7", "8"] else [] }
        (roomPlayersKey "1" "2"))
      (getGameState
        { stEmpty with
          hashes := fun k =>
            if k = gameStateKey "1" "2" then [("phase", "finished"), ("game_id", "g9")] else [],
          sets := fun k => if k = roomPlayersKey "1" "2" then ["7", "8"] else [] }
        "1" "2") = .noAction ∧
    checkRoom 2 "1" "2" "g" "t" true
      { stEmpty with
        hashes := fun k =>
          if k = gameStateKey "1" "2" then [("phase", "finished"), ("game_id", "g9")] else [],
        sets := fun k => if k = roomPlayersKey "1" "2" then ["7", "8"] else [] } =
      { stEmpty with
        hashes := fun k =>
          if k = gameStateKey "1" "2" then [("phase", "finished"), ("game_id", "g9")] else [],
        sets := fun k => if k = roomPlayersKey "1" "2" then ["7", "8"] else [] } :=
  finished_phase_frame 2 "1" "2" "g" "t" true _ (by decide) (by decide)

/-- The failing input for the spec's end-to-end scenario B: a room in
phase flop whose seated count has dropped to a single player "7", whose
hash still carries a bet, hole cards, a last action and the dealer flag. -/
def stScenarioB : RedisState :=
  { hashes := fun k =>
      if k = roomInfoKey "1" "2" then [("status", "gaming")]
      else if k = gameStateKey "1" "2" then
        [("phase", "flop"), ("game_id", "g42"), ("pot", "30"), ("current_bet", "10"),
         ("community_cards", "[\"AH\",\"KD\",\"2S\"]"), ("started_at", "2026-01-01T00:00:00Z")]
      else if k = playerInfoKey "1" "2" "7" then
        [("status", "active"), ("bet", "50"), ("cards", "[\"3C\",\"4C\"]"),
         ("last_action", "call"), ("is_dealer", "1")]
      else [],
    sets := fun k => if k = roomPlayersKey "1" "2" then ["7"] else [],
    lists := fun _ => [],
    actions := fun _ => [] }

/-- The store after one monitor tick evaluates scenario B's room. -/
def stScenarioBAfter : RedisState := checkRoom 2 "1" "2" "gNew" "t1" true stScenarioB

/-- C3: evaluation of the monitor tick at scenario B's failing input. The
tick does fire the stop transition and resets every game-level field, but
the seated player's record keeps its bet, active status, hole cards, last
action and dealer flag: the monitor-side stop never touches player
hashes, contradicting the claimed per-player reset (bet 0, cards empty,
status waiting). The per-player reset exists only in
`GameStopHandler.resetPlayerState`, which the tick path does not call. -/
theorem monitor_stop_skips_player_reset :
    stScenarioBAfter.hgetF (gameStateKey "1" "2") "phase" = "waiting" ∧
    stScenarioBAfter.hgetF (gameStateKey "1" "2") "game_id" = "" ∧
    stScenarioBAfter.hgetF (gameStateKey "1" "2") "community_cards" = "[]" ∧
    stScenarioBAfter.hgetF (gameStateKey "1" "2") "pot" = "0" ∧
    stScenarioBAfter.hgetF (gameStateKey "1" "2") "current_bet" = "0" ∧
    stScenarioBAfter.hgetF (roomInfoKey "1" "2") "status" = "waiting" ∧
    stScenarioBAfter.actions (roomActionsKey "1" "2") =
      [ActionEvent.gameStopped "flop" "insufficient_players"] ∧
    stScenarioBAfter.hgetF (playerInfoKey "1" "2" "7") "bet" = "50" ∧
    stScenarioBAfter.hgetF (playerInfoKey "1" "2" "7") "status" = "active" ∧
    stScenarioBAfter.hgetF (playerInfoKey "1" "2" "7") "cards" = "[\"3C\",\"4C\"]" ∧
    stScenarioBAfter.hgetF (playerInfoKey "1" "2" "7") "last_action" = "call" ∧
    stScenarioBAfter.hgetF (playerInfoKey "1" "2" "7") "is_dealer" = "1" := by
  decide

/-- One in-bounds swap is a permutation; out-of-range indices leave the
list untouched. -/
theorem listSwap_perm (l : List String) (i j : Nat) : List.Perm (listSwap l i j) l := by
  unfold listSwap
  cases hi : l[i]? with
  | none => exact List.Perm.refl l
  | some a =>
    cases hj : l[j]? with
    | none => exact List.Perm.refl l
    | some b =>
      obtain ⟨hilt, hieq⟩ := List.getElem?_eq_some_iff.mp hi
      obtain ⟨hjlt, hjeq⟩ := List.getElem?_eq_some_iff.mp hj
      rw [List.perm_iff_count]
      intro x
      have hjlt2 : j < (l.set i b).length := by simpa using hjlt
      rw [List.count_set _ _ _ _ hjlt2, List.count_set _ _ _ _ hilt]
      rw [List.getElem_set]
      have hcount : (if l[i] == x then 1 else 0) ≤ l.count x := by
        by_cases hx : (l[i] == x) = true
        · have hmem : x ∈ l := by
            rw [← eq_of_beq hx]
            exact l.getElem_mem hilt
          simpa [hx] using List.one_le_count_iff.mpr hmem
        · simp [hx]
      by_cases hij : i = j
      · subst hij
        rw [if_pos rfl]
        have hb : b = a := by rw [← hieq, ← hjeq]
        subst hb
        rw [← hieq]
        omega
      · rw [if_neg hij]
        have hxx : l[j] = b := hjeq
        rw [hxx, ← hieq]
        omega

/-- The whole Fisher-Yates loop permutes its input, whatever the random
stream supplies. -/
theorem fisherYatesAux_perm (rng : Nat → Nat) :
    ∀ (n : Nat) (l : List String), List.Perm (fisherYatesAux rng n l) l
  | 0, l => List.Perm.refl l
  | n + 1, l =>
    (fisherYatesAux_perm rng n (listSwap l (n + 1) (rng (n + 1) % (n + 2)))).trans
      (listSwap_perm l (n + 1) (rng (n + 1) % (n + 2)))

/-- C6: for every random stream and every input deck, the shuffle returns
a permutation of the input — same length, same multiset of cards. The
embedding is a pure function of the input list, mirroring the source,
which copies the slice before swapping and performs no I/O, so the input
sequence itself is never modified. -/
theorem shuffle_is_permutation (rng : Nat → Nat) (deck : List String) :
    List.Perm (shuffleDeck rng deck) deck ∧
      (shuffleDeck rng deck).length = deck.length := by
  have hp : List.Perm (shuffleDeck rng deck) deck :=
    fisherYatesAux_perm rng (deck.length - 1) deck
  exact ⟨hp, hp.length_eq⟩

/-- The draw loop never errors against a reachable store, and never
returns more cards than requested. -/
theorem drawCardsAux_ok :
    ∀ (n : Nat) (acc deck : List String), ∃ cards rest,
      drawCardsAux n acc deck = .ok (cards, rest) ∧ cards.length ≤ acc.length + n
  | 0, acc, deck => ⟨acc, deck, rfl, by simp⟩
  | n + 1, acc, deck => by
    cases hd : deck.getLast? with
    | none =>
      refine ⟨acc, deck, ?_, by simp⟩
      simp [drawCardsAux, drawCard, rpopResult, hd, redisNil]
    | some c0 =>
      obtain ⟨ys, hys⟩ := List.getLast?_eq_some_iff.mp hd
      subst hys
      have hrp : rpopResult (ys ++ [c0]) = .ok (c0, ys) := by
        simp [rpopResult, List.getLast?_concat, List.dropLast_concat]
      by_cases hc : c0 = ""
      · subst hc
        refine ⟨acc, ys, ?_, by simp⟩
        simp [drawCardsAux, drawCard, hrp]
      · obtain ⟨cards, rest, hrun, hlen⟩ := drawCardsAux_ok n (acc ++ [c0]) ys
        refine ⟨cards, rest, ?_, by simp at hlen; omega⟩
        simp [drawCardsAux, drawCard, hrp, hc, hrun]

/-- On a deck that never contains the sentinel value, the draw loop pops
exactly the requested suffix, last card first, stopping early (without
error) when the deck empties. -/
theorem drawCardsAux_spec :
    ∀ (n : Nat) (acc deck : List String), "" ∉ deck →
      drawCardsAux n acc deck =
        .ok (acc ++ deck.reverse.take n, (deck.reverse.drop n).reverse)
  | 0, acc, deck, _ => by simp [drawCardsAux]
  | n + 1, acc, deck, hmem => by
    cases hd : deck.getLast? with
    | none =>
      have hnil : deck = [] := List.getLast?_eq_none_iff.mp hd
      subst hnil
      simp [drawCardsAux, drawCard, rpopResult, redisNil]
    | some c0 =>
      obtain ⟨ys, hys⟩ := List.getLast?_eq_some_iff.mp hd
      subst hys
      have hrp : rpopResult (ys ++ [c0]) = .ok (c0, ys) := by
        simp [rpopResult, List.getLast?_concat, List.dropLast_concat]
      have hc : c0 ≠ "" := by
        intro h
        subst h
        exact hmem (by simp)
      have hys2 : "" ∉ ys := fun h => hmem (by simp [h])
      have hrec := drawCardsAux_spec n (acc ++ [c0]) ys hys2
      simp only [drawCardsAux, drawCard, hrp]
      rw [if_neg hc, hrec]
      simp [List.reverse_append]

/-- C5: `DrawCard` on an exhausted deck returns the empty-string sentinel
with a nil error rather than failing; and for every n, `DrawCards`
returns at most n cards without ever erroring or blocking, stopping early
and returning the cards drawn so far when the deck empties mid-draw (on a
real deck, one whose card codes are never the sentinel string, it returns
exactly the last n stored cards in pop order, or the whole remaining deck
when fewer than n cards remain). -/
theorem draw_exhaustion_semantics :
    drawCard [] = .ok ("", []) ∧
    (∀ deck n, ∃ cards rest, drawCards deck n = .ok (cards, rest) ∧ cards.length ≤ n) ∧
    (∀ deck n, "" ∉ deck →
      drawCards deck n = .ok (deck.reverse.take n, (deck.reverse.drop n).reverse)) := by
  refine ⟨rfl, ?_, ?_⟩
  · intro deck n
    obtain ⟨cards, rest, hrun, hlen⟩ := drawCardsAux_ok n [] deck
    exact ⟨cards, rest, hrun, by simpa using hlen⟩
  · intro deck n hmem
    have h := drawCardsAux_spec n [] deck hmem
    simpa [drawCards] using h

/-- Witness for C5: drawing five cards from a two-card deck returns both
cards (last first) and the empty deck, without error. -/
theorem draw_exhaustion_semantics_witness :
    ("" : String) ∉ ["AH", "KD"] ∧
      drawCards ["AH", "KD"] 5 = .ok (["KD", "AH"], []) :=
  ⟨by decide, draw_exhaustion_semantics.2.2 ["AH", "KD"] 5 (by decide)⟩

/-- HSET leaves the list store untouched. -/
theorem lists_hset (st : RedisState) (k f v : String) : (st.hset k f v).lists = st.lists := rfl

/-- Projection of an update of the list store. -/
theorem lists_listsUpd (st : RedisState) (f : String → List String) :
    ({ st with lists := f } : RedisState).lists = f := rfl

/-- Updating the list store leaves hashes untouched. -/
theorem hashes_listsUpd (st : RedisState) (f : String → List String) :
    ({ st with lists := f } : RedisState).hashes = st.hashes := rfl

/-- Updating the list store leaves sets untouched. -/
theorem sets_listsUpd (st : RedisState) (f : String → List String) :
    ({ st with lists := f } : RedisState).sets = st.sets := rfl

/-- HSET leaves the set store untouched. -/
theorem sets_hset (st : RedisState) (k f v : String) : (st.hset k f v).sets = st.sets := rfl

/-- Saving a deck replaces the room's stored deck list with exactly the
given sequence. -/
theorem lists_saveDeck (club room : String) (d : List String) (st : RedisState) :
    (saveDeckToRedis club room d st).lists (roomDeckKey club room) = d := by
  simp [saveDeckToRedis, RedisState.rpushL, RedisState.delList]

/-- Saving a deck does not touch hashes or sets. -/
theorem saveDeck_frame (club room : String) (d : List String) (st : RedisState) :
    (saveDeckToRedis club room d st).hashes = st.hashes ∧
      (saveDeckToRedis club room d st).sets = st.sets :=
  ⟨rfl, rfl⟩

/-- A two-card draw against a stored deck with no sentinel entries: the
two popped cards are the last two stored, and the stored list shrinks
accordingly. -/
theorem drawCardsS_spec (st : RedisState) (key : String) (d : List String)
    (hd : st.lists key = d) (hne : "" ∉ d) :
    drawCardsS st key 2 = .ok (d.reverse.take 2,
      { st with lists := fun k => if k = key then (d.reverse.drop 2).reverse else st.lists k }) := by
  have hdraw : drawCards d 2 = .ok (d.reverse.take 2, (d.reverse.drop 2).reverse) :=
    drawCardsAux_spec 2 [] d hne
  unfold drawCardsS
  rw [hd, hdraw]

/-- One iteration of the dealing loop on a deck of at least two cards. -/
theorem dealStep (club room u : String) (rest : List String) (st : RedisState)
    (d : List String) (hd : st.lists (roomDeckKey club room) = d) (hne : "" ∉ d)
    (hlen : 2 ≤ d.length) :
    dealToPlayers club room (u :: rest) st =
      dealToPlayers club room rest
        (savePlayerCards club room u (d.reverse.take 2)
          { st with lists := fun k =>
              if k = roomDeckKey club room then (d.reverse.drop 2).reverse
              else st.lists k }) := by
  have hcl : (d.reverse.take 2).length = 2 := by
    simp [Nat.min_eq_left (by simpa using hlen)]
  simp only [dealToPlayers, drawCardsS_spec st _ d hd hne, hcl, ne_eq, not_true_eq_false,
    if_false, ite_false]

/-- A deck shorter than twice the number of remaining players exhausts
the dealing loop into the deck-exhausted error. -/
theorem dealToPlayers_exhaust (club room : String) :
    ∀ (players : List String) (st : RedisState),
      "" ∉ st.lists (roomDeckKey club room) →
      (st.lists (roomDeckKey club room)).length < 2 * players.length →
      dealToPlayers club room players st = .error .deckExhausted
  | [], st, _, hlen => by simp at hlen
  | u :: rest, st, hne, hlen => by
    by_cases hl2 : 2 ≤ (st.lists (roomDeckKey club room)).length
    · rw [dealStep club room u rest st _ rfl hne hl2]
      have hdeck : (savePlayerCards club room u
            ((st.lists (roomDeckKey club room)).reverse.take 2)
            { st with lists := fun k =>
                if k = roomDeckKey club room then
                  ((st.lists (roomDeckKey club room)).reverse.drop 2).reverse
                else st.lists k }).lists (roomDeckKey club room) =
          ((st.lists (roomDeckKey club room)).reverse.drop 2).reverse := by
        simp [savePlayerCards, lists_hset, lists_listsUpd]
      apply dealToPlayers_exhaust club room rest
      · rw [hdeck]
        intro hmem
        rw [List.mem_reverse] at hmem
        exact hne (List.mem_reverse.mp (List.mem_of_mem_drop hmem))
      · rw [hdeck]
        simp only [List.length_reverse, List.length_drop]
        simp only [List.length_cons, Nat.mul_add] at hlen ⊢
        omega
    · have hspec := drawCardsS_spec st (roomDeckKey club room) _ rfl hne
      simp only [dealToPlayers, hspec]
      rw [if_pos]
      rw [List.length_take, List.length_reverse]
      omega

/-- Reads through an update of the list store are unchanged. -/
theorem hgetF_listsUpd (st : RedisState) (f : String → List String) (k fd : String) :
    ({ st with lists := f } : RedisState).hgetF k fd = st.hgetF k fd := rfl

/-- The first three two-card slices of a duplicate-free list are pairwise
disjoint. -/
theorem slices_disjoint (r : List String) (hnd : r.Nodup) :
    List.Disjoint (r.take 2) ((r.drop 2).take 2) ∧
    List.Disjoint (r.take 2) ((r.drop 4).take 2) ∧
    List.Disjoint ((r.drop 2).take 2) ((r.drop 4).take 2) := by
  have h6 : r.take 6 = r.take 2 ++ ((r.drop 2).take 2 ++ (r.drop 4).take 2) := by
    rw [show (6 : Nat) = 2 + 4 from rfl, List.take_add,
      show (4 : Nat) = 2 + 2 from rfl, List.take_add, List.drop_drop]
  have hnd6 : (r.take 6).Nodup := (List.take_sublist 6 r).nodup hnd
  rw [h6] at hnd6
  obtain ⟨hn1, hn2, hdisj1⟩ := List.nodup_append.mp hnd6
  obtain ⟨hn3, hn4, hdisj2⟩ := List.nodup_append.mp hn2
  obtain ⟨d12, d13⟩ := List.disjoint_append_right.mp hdisj1
  exact ⟨d12, d13, hdisj2⟩

/-- Running the dealing loop for exactly three distinct players over a
52-card duplicate-free deck: it succeeds, each player's hash receives the
JSON encoding of the next two popped cards, and the stored deck ends as
the first 46 cards. -/
theorem dealToPlayers_three (club room u1 u2 u3 : String) (st : RedisState)
    (d : List String) (hd : st.lists (roomDeckKey club room) = d) (hne : "" ∉ d)
    (hlen : d.length = 52) (h12 : u1 ≠ u2) (h13 : u1 ≠ u3) (h23 : u2 ≠ u3) :
    ∃ st1, dealToPlayers club room [u1, u2, u3] st = .ok st1 ∧
      st1.lists (roomDeckKey club room) = (d.reverse.drop 6).reverse ∧
      st1.hgetF (playerInfoKey club room u1) "cards" = jsonArr (d.reverse.take 2) ∧
      st1.hgetF (playerInfoKey club room u2) "cards" =
        jsonArr ((d.reverse.drop 2).take 2) ∧
      st1.hgetF (playerInfoKey club room u3) "cards" =
        jsonArr ((d.reverse.drop 4).take 2) := by
  have k13 : playerInfoKey club room u1 ≠ playerInfoKey club room u3 :=
    fun h => h13 (playerInfoKey_inj club room h)
  have k12 : playerInfoKey club room u1 ≠ playerInfoKey club room u2 :=
    fun h => h12 (playerInfoKey_inj club room h)
  have k23 : playerInfoKey club room u2 ≠ playerInfoKey club room u3 :=
    fun h => h23 (playerInfoKey_inj club room h)
  have step1 := dealStep club room u1 [u2, u3] st d hd hne (by rw [hlen]; omega)
  set A := savePlayerCards club room u1 (d.reverse.take 2)
    { st with lists := fun k =>
        if k = roomDeckKey club room then (d.reverse.drop 2).reverse
        else st.lists k } with hA
  have hdA : A.lists (roomDeckKey club room) = (d.reverse.drop 2).reverse := by
    rw [hA]
    simp [savePlayerCards, lists_hset, lists_listsUpd]
  have hneA : "" ∉ (d.reverse.drop 2).reverse := by
    intro hm
    rw [List.mem_reverse] at hm
    exact hne (List.mem_reverse.mp (List.mem_of_mem_drop hm))
  have step2 := dealStep club room u2 [u3] A ((d.reverse.drop 2).reverse) hdA hneA
    (by simp [hlen])
  simp only [List.reverse_reverse, List.drop_drop] at step2
  norm_num at step2
  set B := savePlayerCards club room u2 ((d.reverse.drop 2).take 2)
    { A with lists := fun k =>
        if k = roomDeckKey club room then (d.reverse.drop 4).reverse
        else A.lists k } with hB
  have hdB : B.lists (roomDeckKey club room) = (d.reverse.drop 4).reverse := by
    rw [hB]
    simp [savePlayerCards, lists_hset, lists_listsUpd]
  have hneB : "" ∉ (d.reverse.drop 4).reverse := by
    intro hm
    rw [List.mem_reverse] at hm
    exact hne (List.mem_reverse.mp (List.mem_of_mem_drop hm))
  have step3 := dealStep club room u3 [] B ((d.reverse.drop 4).reverse) hdB hneB
    (by simp [hlen])
  simp only [List.reverse_reverse, List.drop_drop] at step3
  norm_num at step3
  set C := savePlayerCards club room u3 ((d.reverse.drop 4).take 2)
    { B with lists := fun k =>
        if k = roomDeckKey club room then (d.reverse.drop 6).reverse
        else B.lists k } with hC
  refine ⟨C, ?_, ?_, ?_, ?_, ?_⟩
  · rw [step1, step2, step3]
    rfl
  · rw [hC]
    simp [savePlayerCards, lists_hset, lists_listsUpd]
  · rw [hC, hB]
    simp only [savePlayerCards]
    rw [hgetF_hset_ne_key _ _ _ _ _ _ k13, hgetF_listsUpd,
      hgetF_hset_ne_key _ _ _ _ _ _ k12, hgetF_listsUpd]
    rw [hA]
    simp only [savePlayerCards]
    rw [hgetF_hset_self]
  · rw [hC]
    simp only [savePlayerCards]
    rw [hgetF_hset_ne_key _ _ _ _ _ _ k23, hgetF_listsUpd]
    rw [hB]
    simp only [savePlayerCards]
    rw [hgetF_hset_self]
  · rw [hC]
    simp only [savePlayerCards]
    rw [hgetF_hset_self]

/-- C8: the dealer's contract. With no seated player it fails with the
no-players error. With more players than a fresh 52-card deck can serve
(any player's two-card draw coming up short) the whole operation fails
with the deck-exhausted error. With three distinct seated players it
creates, shuffles and persists a fresh deck (replacing any prior one),
deals exactly two cards to each player in turn — six cards total, drawn
from the top of the shuffled deck — leaves 46 cards stored, and no two
players share a card. -/
theorem deal_hole_cards_contract (rng : Nat → Nat) (club room : String) (st : RedisState) :
    (st.sets (roomPlayersKey club room) = [] →
      dealCardsToPlayers rng club room st = .error .noPlayers) ∧
    (52 < 2 * (st.sets (roomPlayersKey club room)).length →
      dealCardsToPlayers rng club room st = .error .deckExhausted) ∧
    (∀ u1 u2 u3, st.sets (roomPlayersKey club room) = [u1, u2, u3] →
      u1 ≠ u2 → u1 ≠ u3 → u2 ≠ u3 →
      ∃ st1, dealCardsToPlayers rng club room st = .ok st1 ∧
        (st1.lists (roomDeckKey club room)).length = 46 ∧
        st1.hgetF (playerInfoKey club room u1) "cards" =
          jsonArr ((shuffleDeck rng createDeck).reverse.take 2) ∧
        st1.hgetF (playerInfoKey club room u2) "cards" =
          jsonArr (((shuffleDeck rng createDeck).reverse.drop 2).take 2) ∧
        st1.hgetF (playerInfoKey club room u3) "cards" =
          jsonArr (((shuffleDeck rng createDeck).reverse.drop 4).take 2) ∧
        ((shuffleDeck rng createDeck).reverse.take 2).length = 2 ∧
        (((shuffleDeck rng createDeck).reverse.drop 2).take 2).length = 2 ∧
        (((shuffleDeck rng createDeck).reverse.drop 4).take 2).length = 2 ∧
        List.Disjoint ((shuffleDeck rng createDeck).reverse.take 2)
          (((shuffleDeck rng createDeck).reverse.drop 2).take 2) ∧
        List.Disjoint ((shuffleDeck rng createDeck).reverse.take 2)
          (((shuffleDeck rng createDeck).reverse.drop 4).take 2) ∧
        List.Disjoint (((shuffleDeck rng createDeck).reverse.drop 2).take 2)
          (((shuffleDeck rng createDeck).reverse.drop 4).take 2)) := by
  have hperm : List.Perm (shuffleDeck rng createDeck) createDeck :=
    fisherYatesAux_perm rng (createDeck.length - 1) createDeck
  have hlen : (shuffleDeck rng createDeck).length = 52 := by
    rw [hperm.length_eq]
    decide
  have hnd : (shuffleDeck rng createDeck).Nodup :=
    hperm.nodup_iff.mpr (by decide)
  have hne : "" ∉ shuffleDeck rng createDeck := by
    intro hm
    exact (by decide : ("" : String) ∉ createDeck) (hperm.mem_iff.mp hm)
  refine ⟨?_, ?_, ?_⟩
  · intro hp
    simp only [dealCardsToPlayers, RedisState.smembers, hp]
    rfl
  · intro hcnt
    rcases hp : st.sets (roomPlayersKey club room) with _ | ⟨u, us⟩
    · rw [hp] at hcnt
      simp at hcnt
    · rw [hp] at hcnt
      simp only [dealCardsToPlayers, RedisState.smembers, hp, List.isEmpty_cons,
        Bool.false_eq_true, if_false]
      apply dealToPlayers_exhaust
      · rw [lists_saveDeck]
        exact hne
      · rw [lists_saveDeck, hlen]
        exact hcnt
  · intro u1 u2 u3 hp h12 h13 h23
    have hsave : (saveDeckToRedis club room (shuffleDeck rng createDeck) st).lists
        (roomDeckKey club room) = shuffleDeck rng createDeck :=
      lists_saveDeck club room _ st
    obtain ⟨st1, hrun, hdeck, hc1, hc2, hc3⟩ :=
      dealToPlayers_three club room u1 u2 u3
        (saveDeckToRedis club room (shuffleDeck rng createDeck) st)
        (shuffleDeck rng createDeck) hsave hne hlen h12 h13 h23
    have hndr : (shuffleDeck rng createDeck).reverse.Nodup := by
      rw [List.nodup_reverse]
      exact hnd
    obtain ⟨dj12, dj13, dj23⟩ := slices_disjoint _ hndr
    refine ⟨st1, ?_, ?_, hc1, hc2, hc3, ?_, ?_, ?_, dj12, dj13, dj23⟩
    · simp only [dealCardsToPlayers, RedisState.smembers, hp, List.isEmpty_cons,
        Bool.false_eq_true, if_false]
      exact hrun
    · rw [hdeck]
      simp [hlen]
    · simp [hlen]
    · simp [hlen]
    · simp [hlen]

/-- A fixed random stream for concrete witnesses. -/
def rngZero : Nat → Nat := fun _ => 0

/-- A room with three seated players, for concrete witnesses. -/
def stDeal : RedisState :=
  { stEmpty with sets := fun k => if k = roomPlayersKey "1" "2" then ["7", "8", "9"] else [] }

/-- A room with 27 seated players (more than a 52-card deck can serve),
for concrete witnesses. -/
def stMany : RedisState :=
  { stEmpty with sets := fun k =>
      if k = roomPlayersKey "1" "2" then List.replicate 27 "u" else [] }

/-- Witness for C8 at concrete rooms: an empty room, an over-full room,
and a three-player room. -/
theorem deal_hole_cards_contract_witness :
    (stEmpty.sets (roomPlayersKey "1" "2") = [] ∧
      dealCardsToPlayers rngZero "1" "2" stEmpty = .error .noPlayers) ∧
    (52 < 2 * (stMany.sets (roomPlayersKey "1" "2")).length ∧
      dealCardsToPlayers rngZero "1" "2" stMany = .error .deckExhausted) ∧
    (stDeal.sets (roomPlayersKey "1" "2") = ["7", "8", "9"] ∧
      ∃ st1, dealCardsToPlayers rngZero "1" "2" stDeal = .ok st1 ∧
        (st1.lists (roomDeckKey "1" "2")).length = 46 ∧
        st1.hgetF (playerInfoKey "1" "2" "7") "cards" =
          jsonArr ((shuffleDeck rngZero createDeck).reverse.take 2) ∧
        st1.hgetF (playerInfoKey "1" "2" "8") "cards" =
          jsonArr (((shuffleDeck rngZero createDeck).reverse.drop 2).take 2) ∧
        st1.hgetF (playerInfoKey "1" "2" "9") "cards" =
          jsonArr (((shuffleDeck rngZero createDeck).reverse.drop 4).take 2) ∧
        ((shuffleDeck rngZero createDeck).reverse.take 2).length = 2 ∧
        (((shuffleDeck rngZero createDeck).reverse.drop 2).take 2).length = 2 ∧
        (((shuffleDeck rngZero createDeck).reverse.drop 4).take 2).length = 2 ∧
        List.Disjoint ((shuffleDeck rngZero createDeck).reverse.take 2)
          (((shuffleDeck rngZero createDeck).reverse.drop 2).take 2) ∧
        List.Disjoint ((shuffleDeck rngZero createDeck).reverse.take 2)
          (((shuffleDeck rngZero createDeck).reverse.drop 4).take 2) ∧
        List.Disjoint (((shuffleDeck rngZero createDeck).reverse.drop 2).take 2)
          (((shuffleDeck rngZero createDeck).reverse.drop 4).take 2)) :=
  ⟨⟨rfl, (deal_hole_cards_contract rngZero "1" "2" stEmpty).1 rfl⟩,
   ⟨by decide, (deal_hole_cards_contract rngZero "1" "2" stMany).2.1 (by decide)⟩,
   ⟨by decide, (deal_hole_cards_contract rngZero "1" "2" stDeal).2.2 "7" "8" "9"
     (by decide) (by decide) (by decide) (by decide)⟩⟩

end PokerEngine
